import Mathlib

/-!
# Verification of the codehooks MCP server dispatch core (`src/index.ts`)

A shallow embedding of the command-proxy server: credential configuration,
the command executor with token redaction, the per-tool argument builders,
temporary-file staging, and the tool-call dispatcher.  Definitions are
transcribed from `src/index.ts`; modelling choices that coarsen library
semantics (JS regex, JSON, the filesystem) are documented at each definition.

Modelling conventions:
* JS strings are `String`; JS numbers are `Int` (only integral values occur
  in the code paths under study); absent optional values are `Option`.
* The filesystem is the set of existing paths (`List String`); file contents
  are not tracked because no property under study inspects them.
* Subprocess execution is an oracle: the state carries a queue of
  `ExecOutcome`s consumed in spawn order, and records every spawned
  argument vector.
* `String.replace(new RegExp(token, 'g'), '***')` is modelled as literal
  global (leftmost, non-overlapping) replacement, which is the JS behaviour
  for tokens free of regex metacharacters.
-/

namespace Codehooks

/-- The process-wide configuration (`CodehooksConfig` in `src/index.ts`),
populated from `CODEHOOKS_PROJECT_NAME` / `CODEHOOKS_SPACE` /
`CODEHOOKS_ADMIN_TOKEN`. -/
structure CodehooksConfig where
  projectId : String
  space : String
  adminToken : String
  deriving DecidableEq, Repr

/-- Model of the JS test `!s || s.trim() === ''` used by the dispatcher's
configuration check: a string is blank iff all its characters are whitespace
(the empty string included). -/
def isBlank (s : String) : Bool :=
  s.data.all (·.isWhitespace)

/-- JS `a || b` on strings: `a` unless it is falsy (empty). -/
def jsOrStr (a b : String) : String :=
  if a = "" then b else a

/-- JS `a || b` where `a` is an optional string (`undefined` or a value). -/
def jsOrOpt (a : Option String) (b : String) : String :=
  jsOrStr (a.getD "") b

/-- JS truthiness of an optional string: present and non-empty. -/
def jsTruthyStr (a : Option String) : Bool :=
  match a with
  | some s => s ≠ ""
  | none => false

/-- `Array.prototype.join(sep)` / the command-line string Node builds from an
argument vector. -/
def jsJoin (sep : String) : List String → String
  | [] => ""
  | [x] => x
  | x :: xs => x ++ sep ++ jsJoin sep xs

/-- Fuel-indexed worker for literal global string replacement: replaces
leftmost, non-overlapping occurrences of `t` by `r`.  The fuel only makes the
recursion structural; `replaceAll` supplies fuel `≥` the input length, which
is always enough because every step consumes at least one input character. -/
def replaceAllAux (t r : List Char) : Nat → List Char → List Char
  | _, [] => []
  | 0, s => s
  | fuel + 1, c :: s =>
    if t.isPrefixOf (c :: s) ∧ t ≠ [] then
      r ++ replaceAllAux t r fuel (List.drop t.length (c :: s))
    else
      c :: replaceAllAux t r fuel s

/-- Literal global replacement of `t` by `r` in `s` (JS
`s.replace(new RegExp(t, 'g'), r)` for a metacharacter-free pattern `t`). -/
def replaceAll (t r s : List Char) : List Char :=
  replaceAllAux t r s.length s

/-- The sanitizer of `executeCohoCommand` (`src/index.ts:530`):
`text ? text.replace(new RegExp(config.adminToken, 'g'), '***') : text`.
The empty-token case (degenerate in JS as well) never arises on the paths
under study because the dispatcher rejects blank tokens up front. -/
def sanitizeText (token text : String) : String :=
  if text = "" then text
  else ⟨replaceAll token.data "***".data text.data⟩

/-- Error codes of the MCP SDK that the server uses. -/
inductive McpErrorCode where
  | invalidRequest
  | methodNotFound
  deriving DecidableEq, Repr

/-- A transport-level fault (`McpError` of the MCP SDK): thrown errors of
this class abort the request at the protocol layer instead of producing a
tool result payload. -/
structure McpError where
  code : McpErrorCode
  message : String
  deriving DecidableEq, Repr

/-- The classes of JS exceptions the dispatcher's `catch` block
distinguishes (`src/index.ts:1594-1618`): `McpError`, `z.ZodError`
(schema-validation failure, carrying its message), or any other `Error`
(carrying its message). -/
inductive Thrown where
  | mcp (e : McpError)
  | zod (message : String)
  | err (message : String)
  deriving DecidableEq, Repr

/-- A tool-call response payload: the single text content item the handlers
return, plus the `isError` flag. -/
structure CallResult where
  text : String
  isError : Bool
  deriving DecidableEq, Repr

/-- The observable outcome of one subprocess execution, supplied by the
environment: exit success, captured stdout and captured stderr.  Timeouts
and spawn failures are folded into `ok = false` (both reject the `execFile`
promise). -/
structure ExecOutcome where
  ok : Bool
  stdout : String
  stderr : String
  deriving DecidableEq, Repr

/-- Outcome assumed when the oracle queue is exhausted (arbitrary; theorems
quantify over the queue). -/
def defaultOutcome : ExecOutcome :=
  ⟨true, "", ""⟩

/-- The mutable world state threaded through a request: the existing
filesystem paths, the process working directory, the queue of pending
subprocess outcomes, the current `Date.now()` value, the fresh suffix
`fs.mkdtemp` would generate, and the record of spawned argument vectors. -/
structure St where
  fs : List String
  cwd : String
  pending : List ExecOutcome
  now : Nat
  tmpSuffix : String
  spawned : List (List String)
  deriving DecidableEq, Repr

/-- Spawn one subprocess with argument vector `cmd` (`execFile`): consume
the next oracle outcome and record the spawn. -/
def execFileM (cmd : List String) (st : St) : ExecOutcome × St :=
  match st.pending with
  | [] => (defaultOutcome, { st with spawned := st.spawned ++ [cmd] })
  | o :: rest => (o, { st with pending := rest, spawned := st.spawned ++ [cmd] })

/-- Create `path` on the filesystem (`fs.writeFile` / `fs.mkdtemp`). -/
def fsCreate (path : String) (st : St) : St :=
  { st with fs := path :: st.fs.filter (· ≠ path) }

/-- Remove `path` (`fs.unlink`).  Modelled as unconditional removal; the
source only unlinks paths it just created, and its `catch` clauses ignore
unlink errors. -/
def fsUnlink (path : String) (st : St) : St :=
  { st with fs := st.fs.filter (· ≠ path) }

/-- Does `pre` occur as a prefix of `p`? (over the character lists). -/
def pathHasPrefix (pre p : String) : Bool :=
  pre.data.isPrefixOf p.data

/-- Remove `dir` and everything below it
(`fs.rm(dir, { recursive: true, force: true })`). -/
def fsRmRecursive (dir : String) (st : St) : St :=
  { st with fs := st.fs.filter (fun p => ¬ pathHasPrefix dir p) }

/-- Model of Node's `path.basename` for ordinary paths: strip trailing
slashes, then take the part after the last slash.  (Degenerate inputs such
as `"/"` differ from Node; no tool passes them on the paths under study.) -/
def basename (p : String) : String :=
  ⟨((p.data.reverse.dropWhile (· = '/')).takeWhile (· ≠ '/')).reverse⟩

/-- Model of the message Node attaches to a rejected `execFile` promise on
non-zero exit: `"Command failed: "` followed by the space-joined command
line and the captured stderr.  This is behaviour of Node's `child_process`
library, not of the repository code. -/
def nodeErrMessage (cmd : List String) (stderr : String) : String :=
  "Command failed: " ++ jsJoin " " cmd ++ "\n" ++ stderr

/-- The error-detail string `executeCohoCommand` assembles on failure
(`src/index.ts:544`): sanitized message and sanitized stderr, empty parts
dropped, joined by `" - "`. -/
def commandFailedDetails (token : String) (cmd : List String) (o : ExecOutcome) : String :=
  jsJoin " - " (([sanitizeText token (nodeErrMessage cmd o.stderr),
                  sanitizeText token o.stderr]).filter (· ≠ ""))

/-- `executeCohoCommand` (`src/index.ts:512-547`): appends
`--admintoken <token>` to the argument vector, spawns `coho`, and on
success returns `stdout || stderr` with every occurrence of the token
redacted; on failure throws a transport-level `McpError` whose message
carries the sanitized diagnostics.  (Logging to stderr is not modelled;
the timeout is folded into the outcome oracle.) -/
def executeCohoCommand (cfg : CodehooksConfig) (args : List String) (st : St) :
    Except Thrown String × St :=
  let full := "coho" :: args ++ ["--admintoken", cfg.adminToken]
  let r := execFileM full st
  let o := r.1
  if o.ok then
    (.ok (sanitizeText cfg.adminToken (jsOrStr o.stdout o.stderr)), r.2)
  else
    (.error (.mcp ⟨.invalidRequest,
      "Command failed: " ++ commandFailedDetails cfg.adminToken full o⟩), r.2)

/-! ## JSON-ish parameter values and zod-style validation

Each tool declares a `z.object` schema over primitive fields.  `JsValue`
models the incoming parameter object; the per-tool `parse…` functions model
`tool.schema.parse`, returning the typed arguments or a validation-error
message.  Exact zod error texts are not reproduced (no property under study
inspects them); presence/absence and type checking follow zod: a required
field must be present with the right type, an optional field may be absent
but must have the right type when present, unknown fields are ignored, and
declared defaults fill absent fields. -/

/-- A JS value as it arrives in `request.params.arguments`.  Numbers are
modelled as integers (only integral values occur in the code paths under
study). -/
inductive JsValue where
  | null
  | bool (b : Bool)
  | num (n : Int)
  | str (s : String)
  | arr (xs : List JsValue)
  | obj (fields : List (String × JsValue))

namespace JsValue

/-- First binding of field `k` in an object's field list. -/
def getField (fields : List (String × JsValue)) (k : String) : Option JsValue :=
  (fields.find? (fun p => p.1 = k)).map (·.2)

/-- The top-level value must be an object. -/
def asObj : JsValue → Except String (List (String × JsValue))
  | obj fields => .ok fields
  | _ => .error "Expected object"

/-- Required string field. -/
def reqStr (fields : List (String × JsValue)) (k : String) : Except String String :=
  match getField fields k with
  | some (str s) => .ok s
  | some _ => .error (k ++ ": Expected string")
  | none => .error (k ++ ": Required")

/-- Optional string field. -/
def optStr (fields : List (String × JsValue)) (k : String) : Except String (Option String) :=
  match getField fields k with
  | some (str s) => .ok (some s)
  | some _ => .error (k ++ ": Expected string")
  | none => .ok none

/-- Required number field. -/
def reqNum (fields : List (String × JsValue)) (k : String) : Except String Int :=
  match getField fields k with
  | some (num n) => .ok n
  | some _ => .error (k ++ ": Expected number")
  | none => .error (k ++ ": Required")

/-- Optional number field. -/
def optNum (fields : List (String × JsValue)) (k : String) : Except String (Option Int) :=
  match getField fields k with
  | some (num n) => .ok (some n)
  | some _ => .error (k ++ ": Expected number")
  | none => .ok none

/-- Optional boolean field. -/
def optBool (fields : List (String × JsValue)) (k : String) : Except String (Option Bool) :=
  match getField fields k with
  | some (bool b) => .ok (some b)
  | some _ => .error (k ++ ": Expected boolean")
  | none => .ok none

/-- Optional string field with a declared default (zod `.default(d)`). -/
def strWithDefault (fields : List (String × JsValue)) (k d : String) : Except String String :=
  match getField fields k with
  | some (str s) => .ok s
  | some _ => .error (k ++ ": Expected string")
  | none => .ok d

/-- String field restricted to an enumeration, with a declared default
(zod `.enum([...]).optional().default(d)`). -/
def enumWithDefault (fields : List (String × JsValue)) (k : String)
    (allowed : List String) (d : String) : Except String String :=
  match getField fields k with
  | some (str s) => if s ∈ allowed then .ok s else .error (k ++ ": Invalid enum value")
  | some _ => .error (k ++ ": Expected string")
  | none => .ok d

/-- Number field with a declared default (zod `.optional().default(d)`). -/
def numWithDefault (fields : List (String × JsValue)) (k : String) (d : Int) : Except String Int :=
  match getField fields k with
  | some (num n) => .ok n
  | some _ => .error (k ++ ": Expected number")
  | none => .ok d

end JsValue

/-- One entry of `deploy_code`'s `files` array. -/
structure FileEntry where
  path : String
  content : String
  deriving DecidableEq, Repr

/-- `z.object({ path: z.string(), content: z.string() })`. -/
def parseFileEntry (v : JsValue) : Except String FileEntry := do
  let fields ← v.asObj
  let path ← JsValue.reqStr fields "path"
  let content ← JsValue.reqStr fields "content"
  return ⟨path, content⟩

/-- `z.array(z.object({ path, content }))`. -/
def parseFileEntries (v : JsValue) : Except String (List FileEntry) :=
  match v with
  | .arr xs => xs.mapM parseFileEntry
  | _ => .error "files: Expected array"

/-- Typed arguments of `query_collection` (`queryCollectionSchema`). -/
structure QueryCollectionArgs where
  collection : String
  query : Option String := none
  count : Option Bool := none
  delete : Option Bool := none
  update : Option String := none
  replace : Option String := none
  useindex : Option String := none
  start : Option String := none
  «end» : Option String := none
  limit : Option Int := none
  fields : Option String := none
  sort : Option String := none
  offset : Option Int := none
  enqueue : Option String := none
  reverse : Option Bool := none
  csv : Option Bool := none
  jsonl : Option Bool := none
  deriving DecidableEq, Repr

/-- Typed arguments of `deploy_code` (`deployCodeSchema`). -/
structure DeployCodeArgs where
  files : List FileEntry
  main : Option String := none
  json : Option Bool := none
  projectId : Option String := none
  spaceId : Option String := none
  deriving DecidableEq, Repr

/-- Typed arguments of `file_upload` (`fileUploadSchema`); `encoding`
defaults to `"text"`. -/
structure FileUploadArgs where
  content : String
  encoding : String := "text"
  target : String
  deriving DecidableEq, Repr

/-- Typed arguments of `file_delete` (`fileDeleteSchema`). -/
structure FileDeleteArgs where
  filename : Option String := none
  «match» : Option String := none
  dryrun : Option Bool := none
  deriving DecidableEq, Repr

/-- Typed arguments of `file_list` (`fileListSchema`). -/
structure FileListArgs where
  path : Option String := none
  deriving DecidableEq, Repr

/-- Typed arguments of `create_index` / `drop_index`. -/
structure IndexArgs where
  collection : String
  index : String
  deriving DecidableEq, Repr

/-- Typed arguments of tools taking just a collection name
(`create_collection`, `drop_collection`, `remove_schema`,
`uncap_collection`). -/
structure CollectionOnlyArgs where
  collection : String
  deriving DecidableEq, Repr

/-- Typed arguments of `add_schema` (`schemaSchema`). -/
structure SchemaArgs where
  collection : String
  schema : String
  deriving DecidableEq, Repr

/-- Typed arguments of `cap_collection` (`capCollectionSchema`). -/
structure CapCollectionArgs where
  collection : String
  cap : Int
  deriving DecidableEq, Repr

/-- Typed arguments of `import` (`importSchema`). -/
structure ImportArgs where
  filepath : Option String := none
  content : Option String := none
  collection : String
  separator : Option String := none
  encoding : Option String := none
  deriving DecidableEq, Repr

/-- Typed arguments of `export` (`exportSchema`). -/
structure ExportArgs where
  collection : String
  filepath : Option String := none
  csv : Option Bool := none
  jsonl : Option Bool := none
  deriving DecidableEq, Repr

/-- Typed arguments of `kv_get` (`kvGetSchema`); `key` defaults to `"*"`. -/
structure KvGetArgs where
  key : String := "*"
  keyspace : Option String := none
  text : Option Bool := none
  deriving DecidableEq, Repr

/-- Typed arguments of `kv_set` (`kvSetSchema`). -/
structure KvSetArgs where
  key : String
  val : String
  keyspace : Option String := none
  ttl : Option Int := none
  json : Option Bool := none
  deriving DecidableEq, Repr

/-- Typed arguments of `kv_del` (`kvDelSchema`). -/
structure KvDelArgs where
  key : String
  keyspace : Option String := none
  json : Option Bool := none
  deriving DecidableEq, Repr

/-- Typed arguments of `logs` (`logSchema`); `tail` defaults to `100`. -/
structure LogArgs where
  tail : Int := 100
  follow : Option Bool := none
  context : Option String := none
  deriving DecidableEq, Repr

/-- Typed arguments of `collection` (`collectionSchema`). -/
structure CollectionArgs where
  project : Option String := none
  json : Option Bool := none
  sys : Option Bool := none
  deriving DecidableEq, Repr

/-- The typed arguments of any tool: the closed sum over the catalog. -/
inductive ToolArgs where
  | queryCollection (a : QueryCollectionArgs)
  | deployCode (a : DeployCodeArgs)
  | fileUpload (a : FileUploadArgs)
  | fileDelete (a : FileDeleteArgs)
  | fileList (a : FileListArgs)
  | createIndex (a : IndexArgs)
  | dropIndex (a : IndexArgs)
  | createCollection (a : CollectionOnlyArgs)
  | dropCollection (a : CollectionOnlyArgs)
  | addSchema (a : SchemaArgs)
  | removeSchema (a : CollectionOnlyArgs)
  | capCollection (a : CapCollectionArgs)
  | uncapCollection (a : CollectionOnlyArgs)
  | importData (a : ImportArgs)
  | exportData (a : ExportArgs)
  | kvGet (a : KvGetArgs)
  | kvSet (a : KvSetArgs)
  | kvDel (a : KvDelArgs)
  | logs (a : LogArgs)
  | docs
  | collection (a : CollectionArgs)
  deriving DecidableEq, Repr

/-- The tool catalog, by identity (the `name` fields of the `tools`
array in `src/index.ts`). -/
inductive ToolId where
  | queryCollection
  | deployCode
  | fileUpload
  | fileDelete
  | fileList
  | createIndex
  | dropIndex
  | createCollection
  | dropCollection
  | addSchema
  | removeSchema
  | capCollection
  | uncapCollection
  | importData
  | exportData
  | kvGet
  | kvSet
  | kvDel
  | logs
  | docs
  | collection
  deriving DecidableEq, Repr

/-- The registered name of each tool. -/
def ToolId.name : ToolId → String
  | .queryCollection => "query_collection"
  | .deployCode => "deploy_code"
  | .fileUpload => "file_upload"
  | .fileDelete => "file_delete"
  | .fileList => "file_list"
  | .createIndex => "create_index"
  | .dropIndex => "drop_index"
  | .createCollection => "create_collection"
  | .dropCollection => "drop_collection"
  | .addSchema => "add_schema"
  | .removeSchema => "remove_schema"
  | .capCollection => "cap_collection"
  | .uncapCollection => "uncap_collection"
  | .importData => "import"
  | .exportData => "export"
  | .kvGet => "kv_get"
  | .kvSet => "kv_set"
  | .kvDel => "kv_del"
  | .logs => "logs"
  | .docs => "docs"
  | .collection => "collection"

/-- The catalog in registration order. -/
def toolCatalog : List ToolId :=
  [.queryCollection, .deployCode, .fileUpload, .fileDelete, .fileList,
   .createIndex, .dropIndex, .createCollection, .dropCollection, .addSchema,
   .removeSchema, .capCollection, .uncapCollection, .importData, .exportData,
   .kvGet, .kvSet, .kvDel, .logs, .docs, .collection]

/-- `tools.find(t => t.name === request.params.name)`. -/
def lookupTool (name : String) : Option ToolId :=
  toolCatalog.find? (fun t => t.name = name)

/-- `tool.schema.parse(request.params.arguments)`: validate the parameter
object against the tool's declared schema and produce the typed
arguments. -/
def parseArgs (t : ToolId) (v : JsValue) : Except String ToolArgs := do
  let f ← v.asObj
  match t with
  | .queryCollection =>
    return .queryCollection {
      collection := ← JsValue.reqStr f "collection"
      query := ← JsValue.optStr f "query"
      count := ← JsValue.optBool f "count"
      delete := ← JsValue.optBool f "delete"
      update := ← JsValue.optStr f "update"
      replace := ← JsValue.optStr f "replace"
      useindex := ← JsValue.optStr f "useindex"
      start := ← JsValue.optStr f "start"
      «end» := ← JsValue.optStr f "end"
      limit := ← JsValue.optNum f "limit"
      fields := ← JsValue.optStr f "fields"
      sort := ← JsValue.optStr f "sort"
      offset := ← JsValue.optNum f "offset"
      enqueue := ← JsValue.optStr f "enqueue"
      reverse := ← JsValue.optBool f "reverse"
      csv := ← JsValue.optBool f "csv"
      jsonl := ← JsValue.optBool f "jsonl" }
  | .deployCode =>
    return .deployCode {
      files := ← parseFileEntries ((JsValue.getField f "files").getD .null)
      main := ← JsValue.optStr f "main"
      json := ← JsValue.optBool f "json"
      projectId := ← JsValue.optStr f "projectId"
      spaceId := ← JsValue.optStr f "spaceId" }
  | .fileUpload =>
    return .fileUpload {
      content := ← JsValue.reqStr f "content"
      encoding := ← JsValue.enumWithDefault f "encoding" ["text", "base64"] "text"
      target := ← JsValue.reqStr f "target" }
  | .fileDelete =>
    return .fileDelete {
      filename := ← JsValue.optStr f "filename"
      «match» := ← JsValue.optStr f "match"
      dryrun := ← JsValue.optBool f "dryrun" }
  | .fileList =>
    return .fileList { path := ← JsValue.optStr f "path" }
  | .createIndex =>
    return .createIndex {
      collection := ← JsValue.reqStr f "collection"
      index := ← JsValue.reqStr f "index" }
  | .dropIndex =>
    return .dropIndex {
      collection := ← JsValue.reqStr f "collection"
      index := ← JsValue.reqStr f "index" }
  | .createCollection =>
    return .createCollection { collection := ← JsValue.reqStr f "collection" }
  | .dropCollection =>
    return .dropCollection { collection := ← JsValue.reqStr f "collection" }
  | .addSchema =>
    return .addSchema {
      collection := ← JsValue.reqStr f "collection"
      schema := ← JsValue.reqStr f "schema" }
  | .removeSchema =>
    return .removeSchema { collection := ← JsValue.reqStr f "collection" }
  | .capCollection =>
    return .capCollection {
      collection := ← JsValue.reqStr f "collection"
      cap := ← JsValue.reqNum f "cap" }
  | .uncapCollection =>
    return .uncapCollection { collection := ← JsValue.reqStr f "collection" }
  | .importData =>
    return .importData {
      filepath := ← JsValue.optStr f "filepath"
      content := ← JsValue.optStr f "content"
      collection := ← JsValue.reqStr f "collection"
      separator := ← JsValue.optStr f "separator"
      encoding := ← JsValue.optStr f "encoding" }
  | .exportData =>
    return .exportData {
      collection := ← JsValue.reqStr f "collection"
      filepath := ← JsValue.optStr f "filepath"
      csv := ← JsValue.optBool f "csv"
      jsonl := ← JsValue.optBool f "jsonl" }
  | .kvGet =>
    return .kvGet {
      key := ← JsValue.strWithDefault f "key" "*"
      keyspace := ← JsValue.optStr f "keyspace"
      text := ← JsValue.optBool f "text" }
  | .kvSet =>
    return .kvSet {
      key := ← JsValue.reqStr f "key"
      val := ← JsValue.reqStr f "val"
      keyspace := ← JsValue.optStr f "keyspace"
      ttl := ← JsValue.optNum f "ttl"
      json := ← JsValue.optBool f "json" }
  | .kvDel =>
    return .kvDel {
      key := ← JsValue.reqStr f "key"
      keyspace := ← JsValue.optStr f "keyspace"
      json := ← JsValue.optBool f "json" }
  | .logs =>
    return .logs {
      tail := ← JsValue.numWithDefault f "tail" 100
      follow := ← JsValue.optBool f "follow"
      context := ← JsValue.optStr f "context" }
  | .docs => return .docs
  | .collection =>
    return .collection {
      project := ← JsValue.optStr f "project"
      json := ← JsValue.optBool f "json"
      sys := ← JsValue.optBool f "sys" }

/-! ## Argument-building strategies

One builder per tool, transcribing the `…Args` construction of each `case`
of the dispatcher's `switch`.  A `queryArgs.push(…)` guarded by a JS
truthiness test becomes an appended conditional segment. -/

/-- `if (s) args.push(flag, s)` for a string that may be absent: pushes
exactly when the value is present and non-empty. -/
def optStrSeg (flag : String) (o : Option String) : List String :=
  if jsTruthyStr o then [flag, o.getD ""] else []

/-- `if (n) args.push(flag, n.toString())` for a number that may be absent:
pushes exactly when the value is present and non-zero. -/
def optNumSeg (flag : String) (o : Option Int) : List String :=
  match o with
  | some n => if n ≠ 0 then [flag, toString n] else []
  | none => []

/-- `if (b) args.push(flag)`. -/
def boolSeg (flag : String) (b : Bool) : List String :=
  if b then [flag] else []

/-- The argument vector of `query_collection` (`src/index.ts:609-631`),
including the destructuring defaults `query = ""`, `count = false`,
`delete = false`, `reverse/csv/jsonl = false` and
`limit = count ? undefined : 100`. -/
def buildQueryArgs (cfg : CodehooksConfig) (a : QueryCollectionArgs) : List String :=
  let count := a.count.getD false
  let limit : Option Int :=
    match a.limit with
    | some l => some l
    | none => if count then none else some 100
  ["query", "--collection", a.collection, "--project", cfg.projectId, "--space", cfg.space]
    ++ optStrSeg "--query" (some (a.query.getD ""))
    ++ boolSeg "--count" count
    ++ boolSeg "--delete" (a.delete.getD false)
    ++ optStrSeg "--update" a.update
    ++ optStrSeg "--replace" a.replace
    ++ optStrSeg "--useindex" a.useindex
    ++ optStrSeg "--start" a.start
    ++ optStrSeg "--end" a.«end»
    ++ optNumSeg "--limit" limit
    ++ optStrSeg "--fields" a.fields
    ++ optStrSeg "--sort" a.sort
    ++ optNumSeg "--offset" a.offset
    ++ optStrSeg "--enqueue" a.enqueue
    ++ boolSeg "--reverse" (a.reverse.getD false)
    ++ boolSeg "--csv" (a.csv.getD false)
    ++ boolSeg "--jsonl" (a.jsonl.getD false)

/-- The `deployArgs` vector `deploy_code` itself builds and passes straight
to `execFile('coho', …)` (`src/index.ts:779-787`) — including the admin
token, which this strategy (unlike every other tool) places directly. -/
def buildDeployArgs (cfg : CodehooksConfig) (a : DeployCodeArgs) : List String :=
  ["deploy",
   "--projectname", jsOrOpt a.projectId cfg.projectId,
   "--space", jsOrOpt a.spaceId cfg.space,
   "--main", a.main.getD "index",
   "--admintoken", cfg.adminToken]
    ++ boolSeg "--json" (a.json.getD false)

/-- The argument vector of `file_upload` (`src/index.ts:836-842`), given
the staged temporary path. -/
def buildFileUploadArgs (cfg : CodehooksConfig) (tempPath target : String) : List String :=
  ["file-upload", "--projectname", cfg.projectId, "--space", cfg.space,
   "--src", tempPath, "--target", target]

/-- The argument vector of `file_delete` (`src/index.ts:876-884`). -/
def buildFileDeleteArgs (cfg : CodehooksConfig) (a : FileDeleteArgs) : List String :=
  ["file-delete", "--projectname", cfg.projectId, "--space", cfg.space]
    ++ optStrSeg "--filename" a.filename
    ++ optStrSeg "--match" a.«match»
    ++ boolSeg "--dryrun" (a.dryrun.getD false)

/-- The argument vector of `file_list` (`src/index.ts:900-906`). -/
def buildFileListArgs (cfg : CodehooksConfig) (a : FileListArgs) : List String :=
  ["file-list", "--project", cfg.projectId, "--space", cfg.space]
    ++ (if jsTruthyStr a.path then [a.path.getD ""] else [])

/-- The argument vector of `create_index` (`src/index.ts:922-928`). -/
def buildCreateIndexArgs (cfg : CodehooksConfig) (a : IndexArgs) : List String :=
  ["createindex", "--project", cfg.projectId, "--space", cfg.space, a.collection, a.index]

/-- The argument vector of `drop_index` (`src/index.ts:943-949`). -/
def buildDropIndexArgs (cfg : CodehooksConfig) (a : IndexArgs) : List String :=
  ["removeindex", "--project", cfg.projectId, "--space", cfg.space, a.collection, a.index]

/-- The argument vector of `create_collection` (`src/index.ts:964-969`). -/
def buildCreateCollectionArgs (cfg : CodehooksConfig) (a : CollectionOnlyArgs) : List String :=
  ["createcollection", "--project", cfg.projectId, "--space", cfg.space, a.collection]

/-- The argument vector of `drop_collection` (`src/index.ts:984-989`). -/
def buildDropCollectionArgs (cfg : CodehooksConfig) (a : CollectionOnlyArgs) : List String :=
  ["dropcollection", "--project", cfg.projectId, "--space", cfg.space, a.collection]

/-- The argument vector of `add_schema` (`src/index.ts:1010-1016`), given
the staged schema-file path. -/
def buildAddSchemaArgs (cfg : CodehooksConfig) (collection tempSchemaPath : String) : List String :=
  ["add-schema", "--project", cfg.projectId, "--space", cfg.space,
   "--collection", collection, "--schema", tempSchemaPath]

/-- The argument vector of `remove_schema` (`src/index.ts:1045-1050`). -/
def buildRemoveSchemaArgs (cfg : CodehooksConfig) (a : CollectionOnlyArgs) : List String :=
  ["remove-schema", "--project", cfg.projectId, "--space", cfg.space, a.collection]

/-- The argument vector of `cap_collection` (`src/index.ts:1065-1071`). -/
def buildCapCollectionArgs (cfg : CodehooksConfig) (a : CapCollectionArgs) : List String :=
  ["cap-collection", "--project", cfg.projectId, "--space", cfg.space,
   "--cap", toString a.cap, a.collection]

/-- The argument vector of `uncap_collection` (`src/index.ts:1086-1091`). -/
def buildUncapCollectionArgs (cfg : CodehooksConfig) (a : CollectionOnlyArgs) : List String :=
  ["uncap-collection", "--project", cfg.projectId, "--space", cfg.space, a.collection]

/-- The argument vector of `import` (`src/index.ts:1114-1136`): the staged
temporary file (when content was supplied) or the caller's file path,
followed by the optional separator and encoding. -/
def buildImportArgs (cfg : CodehooksConfig) (a : ImportArgs) (tempFile : Option String) :
    List String :=
  ["import", "--project", cfg.projectId, "--space", cfg.space, "--collection", a.collection]
    ++ (match tempFile with
        | some tp => ["--filepath", tp]
        | none => if jsTruthyStr a.filepath then ["--filepath", a.filepath.getD ""] else [])
    ++ (if jsTruthyStr a.separator then ["--separator", a.separator.getD ""] else [])
    ++ (if jsTruthyStr a.encoding then ["--encoding", a.encoding.getD ""] else [])

/-- The argument vector of `export` (`src/index.ts:1169-1178`). -/
def buildExportArgs (cfg : CodehooksConfig) (a : ExportArgs) : List String :=
  ["export", "--project", cfg.projectId, "--space", cfg.space, "--collection", a.collection]
    ++ optStrSeg "--file" a.filepath
    ++ boolSeg "--csv" (a.csv.getD false)
    ++ boolSeg "--jsonl" (a.jsonl.getD false)

/-- The argument vector of `kv_get` (`src/index.ts:1194-1202`). -/
def buildKvGetArgs (cfg : CodehooksConfig) (a : KvGetArgs) : List String :=
  ["get", "--project", cfg.projectId, "--space", cfg.space, a.key]
    ++ optStrSeg "--keyspace" a.keyspace
    ++ boolSeg "--text" (a.text.getD false)

/-- The argument vector of `kv_set` (`src/index.ts:1218-1228`). -/
def buildKvSetArgs (cfg : CodehooksConfig) (a : KvSetArgs) : List String :=
  ["set", "--project", cfg.projectId, "--space", cfg.space, a.key, a.val]
    ++ optStrSeg "--keyspace" a.keyspace
    ++ optNumSeg "--ttl" a.ttl
    ++ boolSeg "--json" (a.json.getD false)

/-- The argument vector of `kv_del` (`src/index.ts:1244-1252`). -/
def buildKvDelArgs (cfg : CodehooksConfig) (a : KvDelArgs) : List String :=
  ["del", "--project", cfg.projectId, "--space", cfg.space, a.key]
    ++ optStrSeg "--keyspace" a.keyspace
    ++ boolSeg "--json" (a.json.getD false)

/-- The argument vector of `logs` (`src/index.ts:1268-1276`); `--tail` is
always passed. -/
def buildLogArgs (cfg : CodehooksConfig) (a : LogArgs) : List String :=
  ["log", "--project", cfg.projectId, "--space", cfg.space, "--tail", toString a.tail]
    ++ boolSeg "--follow" (a.follow.getD false)
    ++ optStrSeg "--context" a.context

/-- The argument vector of `collection` (`src/index.ts:1569-1576`). -/
def buildCollectionArgs (cfg : CodehooksConfig) (a : CollectionArgs) : List String :=
  ["collection", "--project", jsOrOpt a.project cfg.projectId, "--space", cfg.space]
    ++ boolSeg "--json" (a.json.getD false)
    ++ boolSeg "--sys" (a.sys.getD false)

/-! ## Staged paths -/

/-- `file_upload`'s staged path (`src/index.ts:823`):
`` `/tmp/${path.basename(target)}` `` — derived solely from the target's
basename, with no per-invocation uniqueness. -/
def fileUploadTempPath (target : String) : String :=
  "/tmp/" ++ basename target

/-- `add_schema`'s staged path (`src/index.ts:1006`):
`` `/tmp/schema-${Date.now()}.json` ``. -/
def schemaTempPath (now : Nat) : String :=
  "/tmp/schema-" ++ toString now ++ ".json"

/-- `import`'s staged path (`src/index.ts:1123`):
`` `/tmp/import-${Date.now()}.json` ``. -/
def importTempPath (now : Nat) : String :=
  "/tmp/import-" ++ toString now ++ ".json"

/-- `deploy_code`'s staging directory (`src/index.ts:698`):
`fs.mkdtemp('/tmp/codehooks-deploy-')`, with `suffix` the fresh
OS-generated part. -/
def deployTmpDir (suffix : String) : String :=
  "/tmp/codehooks-deploy-" ++ suffix

/-! ## Tool bodies -/

/-- The shared body shape of the non-file-bearing tools: run the executor
and wrap its output in a non-error text payload. -/
def runCoho (cfg : CodehooksConfig) (args : List String) (st : St) :
    Except Thrown CallResult × St :=
  let r := executeCohoCommand cfg args st
  match r.1 with
  | .ok out => (.ok ⟨out, false⟩, r.2)
  | .error e => (.error e, r.2)

/-- `JSON.stringify(JSON.parse(s), null, 2)` — the readability
re-serialization of `query_collection`'s non-CSV/JSONL output.  Modelled as
the identity: JSON formatting semantics are out of scope and no property
under study inspects the shaped text. -/
def jsonStringifyParse (s : String) : String := s

/-- The `query_collection` case (`src/index.ts:586-658`). -/
def queryCollectionRun (cfg : CodehooksConfig) (a : QueryCollectionArgs) (st : St) :
    Except Thrown CallResult × St :=
  let r := executeCohoCommand cfg (buildQueryArgs cfg a) st
  match r.1 with
  | .ok res =>
    if a.csv.getD false ∨ a.jsonl.getD false then (.ok ⟨res, false⟩, r.2)
    else (.ok ⟨jsonStringifyParse res, false⟩, r.2)
  | .error e => (.error e, r.2)

/-- Content of the synthesized default `package.json`
(`src/index.ts:675-689`): the fields of the object literal, without
reproducing `JSON.stringify` pretty-printing (no property under study
inspects file contents). -/
def defaultPackageJsonContent (name mainFile : String) : String :=
  "\x7b \x22name\x22: " ++ name ++ ", \x22version\x22: 1.0.0, \x22main\x22: "
    ++ mainFile ++ ".js, \x22dependencies\x22: codehooks-js latest \x7d"

/-- The `deploy_code` case (`src/index.ts:660-817`): synthesize a default
`package.json` when absent, stage all files in a fresh `mkdtemp` directory,
list the directory, `npm install` (failure becomes a thrown `McpError`),
list again, then switch the working directory to the staging directory,
run `coho deploy` directly (token placed by this strategy), and on success
clean the staging directory up — on failure it is deliberately preserved.
The `finally` restoring the working directory runs on both exits of the
inner block. -/
def deployCodeRun (cfg : CodehooksConfig) (a : DeployCodeArgs) (st : St) :
    Except Thrown CallResult × St :=
  let mainName := a.main.getD "index"
  let hasPackageJson := a.files.any (·.path = "package.json")
  let filesToDeploy :=
    if hasPackageJson then a.files
    else a.files ++ [⟨"package.json",
      defaultPackageJsonContent (jsOrOpt a.projectId (jsOrStr cfg.projectId "codehooks-project"))
        mainName⟩]
  let tmpDir := deployTmpDir st.tmpSuffix
  let st0 := fsCreate tmpDir st
  let st1 := filesToDeploy.foldl (fun s f => fsCreate (tmpDir ++ "/" ++ f.path) s) st0
  let r1 := execFileM ["ls", "-la"] st1
  if r1.1.ok = false then
    (.error (.err (nodeErrMessage ["ls", "-la"] r1.1.stderr)), r1.2)
  else
    let r2 := execFileM ["npm", "install"] r1.2
    if r2.1.ok = false then
      (.error (.mcp ⟨.invalidRequest,
        "Failed to install dependencies: " ++ nodeErrMessage ["npm", "install"] r2.1.stderr⟩), r2.2)
    else
      let r3 := execFileM ["ls", "-la"] r2.2
      if r3.1.ok = false then
        (.error (.err (nodeErrMessage ["ls", "-la"] r3.1.stderr)), r3.2)
      else
        let originalCwd := r3.2.cwd
        let stIn := { r3.2 with cwd := tmpDir }
        let dargs := buildDeployArgs cfg a
        let r4 := execFileM ("coho" :: dargs) stIn
        if r4.1.ok then
          let stRm := fsRmRecursive tmpDir r4.2
          (.ok ⟨jsOrStr r4.1.stdout (jsOrStr r4.1.stderr "Deployment successful"), false⟩,
            { stRm with cwd := originalCwd })
        else
          (.error (.err (nodeErrMessage ("coho" :: dargs) r4.1.stderr)),
            { r4.2 with cwd := originalCwd })

/-- The `file_upload` case (`src/index.ts:819-867`): stage the content at
`/tmp/<basename(target)>`, run the executor, and unlink the staged file on
both the success and the error path. -/
def fileUploadRun (cfg : CodehooksConfig) (a : FileUploadArgs) (st : St) :
    Except Thrown CallResult × St :=
  let tempPath := fileUploadTempPath a.target
  let r := executeCohoCommand cfg (buildFileUploadArgs cfg tempPath a.target) (fsCreate tempPath st)
  match r.1 with
  | .ok out => (.ok ⟨out, false⟩, fsUnlink tempPath r.2)
  | .error e => (.error e, fsUnlink tempPath r.2)

/-- The `file_delete` case (`src/index.ts:869-896`): requires `filename` or
`match` (else a thrown `McpError`). -/
def fileDeleteRun (cfg : CodehooksConfig) (a : FileDeleteArgs) (st : St) :
    Except Thrown CallResult × St :=
  if ¬ jsTruthyStr a.filename ∧ ¬ jsTruthyStr a.«match» then
    (.error (.mcp ⟨.invalidRequest,
      "Either \x27filename\x27 or \x27match\x27 must be provided."⟩), st)
  else
    runCoho cfg (buildFileDeleteArgs cfg a) st

/-- The `add_schema` case (`src/index.ts:1002-1041`): stage the schema text
at a timestamp-named file, run the executor, and unlink the staged file on
both the success and the error path. -/
def addSchemaRun (cfg : CodehooksConfig) (a : SchemaArgs) (st : St) :
    Except Thrown CallResult × St :=
  let tempSchemaPath := schemaTempPath st.now
  let r := executeCohoCommand cfg (buildAddSchemaArgs cfg a.collection tempSchemaPath)
    (fsCreate tempSchemaPath st)
  match r.1 with
  | .ok out => (.ok ⟨out, false⟩, fsUnlink tempSchemaPath r.2)
  | .error e => (.error e, fsUnlink tempSchemaPath r.2)

/-- The `import` case (`src/index.ts:1104-1165`): requires `filepath` or
`content`; when content is supplied it is staged at a timestamp-named file
that is unlinked on both the success and the error path. -/
def importRun (cfg : CodehooksConfig) (a : ImportArgs) (st : St) :
    Except Thrown CallResult × St :=
  if ¬ jsTruthyStr a.filepath ∧ ¬ jsTruthyStr a.content then
    (.error (.mcp ⟨.invalidRequest,
      "Either \x27filepath\x27 or \x27content\x27 must be provided."⟩), st)
  else if jsTruthyStr a.content then
    let tempFilePath := importTempPath st.now
    let r := executeCohoCommand cfg (buildImportArgs cfg a (some tempFilePath))
      (fsCreate tempFilePath st)
    match r.1 with
    | .ok out => (.ok ⟨out, false⟩, fsUnlink tempFilePath r.2)
    | .error e => (.error e, fsUnlink tempFilePath r.2)
  else
    runCoho cfg (buildImportArgs cfg a none) st

/-- The static documentation text returned by the `docs` tool
(`src/index.ts:1290-1565`), abbreviated: inert data, no property under
study inspects it. -/
def docsContent : String :=
  "# Codehooks.io Complete Documentation & ChatGPT Prompt ..."

/-- The `switch (tool.name)` over the validated arguments
(`src/index.ts:585-1593`).  A constructor mismatch between the tool id and
the argument sum cannot arise from `parseArgs`; it falls to the `default`
branch of the `switch`. -/
def runTool (cfg : CodehooksConfig) : ToolId → ToolArgs → St → Except Thrown CallResult × St
  | .queryCollection, .queryCollection a, st => queryCollectionRun cfg a st
  | .deployCode, .deployCode a, st => deployCodeRun cfg a st
  | .fileUpload, .fileUpload a, st => fileUploadRun cfg a st
  | .fileDelete, .fileDelete a, st => fileDeleteRun cfg a st
  | .fileList, .fileList a, st => runCoho cfg (buildFileListArgs cfg a) st
  | .createIndex, .createIndex a, st => runCoho cfg (buildCreateIndexArgs cfg a) st
  | .dropIndex, .dropIndex a, st => runCoho cfg (buildDropIndexArgs cfg a) st
  | .createCollection, .createCollection a, st => runCoho cfg (buildCreateCollectionArgs cfg a) st
  | .dropCollection, .dropCollection a, st => runCoho cfg (buildDropCollectionArgs cfg a) st
  | .addSchema, .addSchema a, st => addSchemaRun cfg a st
  | .removeSchema, .removeSchema a, st => runCoho cfg (buildRemoveSchemaArgs cfg a) st
  | .capCollection, .capCollection a, st => runCoho cfg (buildCapCollectionArgs cfg a) st
  | .uncapCollection, .uncapCollection a, st => runCoho cfg (buildUncapCollectionArgs cfg a) st
  | .importData, .importData a, st => importRun cfg a st
  | .exportData, .exportData a, st => runCoho cfg (buildExportArgs cfg a) st
  | .kvGet, .kvGet a, st => runCoho cfg (buildKvGetArgs cfg a) st
  | .kvSet, .kvSet a, st => runCoho cfg (buildKvSetArgs cfg a) st
  | .kvDel, .kvDel a, st => runCoho cfg (buildKvDelArgs cfg a) st
  | .logs, .logs a, st => runCoho cfg (buildLogArgs cfg a) st
  | .docs, .docs, st => (.ok ⟨docsContent, false⟩, st)
  | .collection, .collection a, st => runCoho cfg (buildCollectionArgs cfg a) st
  | _, _, st => (.error (.mcp ⟨.methodNotFound, "Tool not found"⟩), st)

/-- The dispatcher's `catch` block (`src/index.ts:1594-1618`): a thrown
`McpError` is re-raised as a transport-level fault; a `ZodError` becomes a
normal response payload flagged as an error with text
`"Invalid arguments: …"`; any other error becomes a normal error-flagged
payload with text `"Error: …"`. -/
def foldThrown : Except Thrown CallResult → Except McpError CallResult
  | .ok r => .ok r
  | .error (.mcp e) => .error e
  | .error (.zod m) => .ok ⟨"Invalid arguments: " ++ m, true⟩
  | .error (.err m) => .ok ⟨"Error: " ++ m, true⟩

/-- The missing-configuration transport fault the dispatcher raises
(`src/index.ts:565-573`), project check first. -/
def missingConfigError (cfg : CodehooksConfig) : McpError :=
  if isBlank cfg.projectId then
    ⟨.invalidRequest, "Missing required configuration: CODEHOOKS_PROJECT_NAME must be set."⟩
  else
    ⟨.invalidRequest,
      "Missing required configuration: CODEHOOKS_ADMIN_TOKEN must be set and not empty."⟩

/-- The `CallToolRequestSchema` handler (`src/index.ts:562-1619`): reject
blank project or token up front (before tool lookup and before any spawn),
look the tool up (`McpError MethodNotFound` when absent), validate the
arguments (a `ZodError` is caught into an error-flagged payload), run the
tool body, and fold anything it throws through the `catch` block. -/
def handleCallTool (cfg : CodehooksConfig) (name : String) (params : JsValue) (st : St) :
    Except McpError CallResult × St :=
  if isBlank cfg.projectId ∨ isBlank cfg.adminToken then
    (.error (missingConfigError cfg), st)
  else
    match lookupTool name with
    | none => (.error ⟨.methodNotFound, "Tool not found"⟩, st)
    | some tid =>
      match parseArgs tid params with
      | .error m => (foldThrown (.error (.zod m)), st)
      | .ok a =>
        let r := runTool cfg tid a st
        (foldThrown r.1, r.2)

/-- Strings that a `query_collection` invocation may place into the
argument vector as caller-controlled values (everything except the
fixed flags). -/
def queryFieldStrings (cfg : CodehooksConfig) (a : QueryCollectionArgs) : List String :=
  [a.collection, cfg.projectId, cfg.space, a.query.getD "", a.update.getD "",
   a.replace.getD "", a.useindex.getD "", a.start.getD "", a.«end».getD "",
   a.fields.getD "", a.sort.getD "", a.enqueue.getD "", toString (a.offset.getD 0)]

/-- The token-independence property of all non-deploy argument builders:
replacing the admin token changes no builder's output. -/
def buildersIgnoreToken (cfg : CodehooksConfig) (t : String) : Prop :=
  (∀ a, buildQueryArgs { cfg with adminToken := t } a = buildQueryArgs cfg a) ∧
  (∀ p tgt, buildFileUploadArgs { cfg with adminToken := t } p tgt
    = buildFileUploadArgs cfg p tgt) ∧
  (∀ a, buildFileDeleteArgs { cfg with adminToken := t } a = buildFileDeleteArgs cfg a) ∧
  (∀ a, buildFileListArgs { cfg with adminToken := t } a = buildFileListArgs cfg a) ∧
  (∀ a, buildCreateIndexArgs { cfg with adminToken := t } a = buildCreateIndexArgs cfg a) ∧
  (∀ a, buildDropIndexArgs { cfg with adminToken := t } a = buildDropIndexArgs cfg a) ∧
  (∀ a, buildCreateCollectionArgs { cfg with adminToken := t } a
    = buildCreateCollectionArgs cfg a) ∧
  (∀ a, buildDropCollectionArgs { cfg with adminToken := t } a
    = buildDropCollectionArgs cfg a) ∧
  (∀ c p, buildAddSchemaArgs { cfg with adminToken := t } c p = buildAddSchemaArgs cfg c p) ∧
  (∀ a, buildRemoveSchemaArgs { cfg with adminToken := t } a = buildRemoveSchemaArgs cfg a) ∧
  (∀ a, buildCapCollectionArgs { cfg with adminToken := t } a = buildCapCollectionArgs cfg a) ∧
  (∀ a, buildUncapCollectionArgs { cfg with adminToken := t } a
    = buildUncapCollectionArgs cfg a) ∧
  (∀ a tf, buildImportArgs { cfg with adminToken := t } a tf = buildImportArgs cfg a tf) ∧
  (∀ a, buildExportArgs { cfg with adminToken := t } a = buildExportArgs cfg a) ∧
  (∀ a, buildKvGetArgs { cfg with adminToken := t } a = buildKvGetArgs cfg a) ∧
  (∀ a, buildKvSetArgs { cfg with adminToken := t } a = buildKvSetArgs cfg a) ∧
  (∀ a, buildKvDelArgs { cfg with adminToken := t } a = buildKvDelArgs cfg a) ∧
  (∀ a, buildLogArgs { cfg with adminToken := t } a = buildLogArgs cfg a) ∧
  (∀ a, buildCollectionArgs { cfg with adminToken := t } a = buildCollectionArgs cfg a)

/-! ## Concrete instances used by the closed theorems below -/

/-- A concrete populated configuration. -/
def cfg0 : CodehooksConfig := ⟨"proj1", "dev", "tok_secret_123"⟩

/-- A configuration with a blank project identifier. -/
def cfgBlank : CodehooksConfig := ⟨"", "dev", "tok_secret_123"⟩

/-- A world whose single pending subprocess fails with stderr `boom`. -/
def stExecFail : St := ⟨[], "/app", [⟨false, "", "boom"⟩], 5, "sfx", []⟩

/-- A world whose single pending subprocess succeeds with stdout `out`. -/
def stExecOk : St := ⟨[], "/app", [⟨true, "out", "errtext"⟩], 5, "sfx", []⟩

/-- A world whose single pending subprocess succeeds printing only to
stderr. -/
def stErrOnly : St := ⟨[], "/app", [⟨true, "", "errtext"⟩], 5, "sfx", []⟩

/-- A deployment world: `ls`, `npm install`, `ls` succeed and the final
`coho deploy` fails with stderr `deploy error`. -/
def stDeployFail : St :=
  ⟨[], "/app", [⟨true, "", ""⟩, ⟨true, "", ""⟩, ⟨true, "", ""⟩, ⟨false, "", "deploy error"⟩],
   0, "Xa1B2c", []⟩

/-- A deployment world where all four subprocesses succeed silently. -/
def stDeployOk : St :=
  ⟨[], "/app", [⟨true, "", ""⟩, ⟨true, "", ""⟩, ⟨true, "", ""⟩, ⟨true, "", ""⟩],
   0, "Xa1B2c", []⟩

/-- A deployment world where the final `coho deploy` succeeds printing
only to stderr. -/
def stDeployStderr : St :=
  ⟨[], "/app", [⟨true, "", ""⟩, ⟨true, "", ""⟩, ⟨true, "", ""⟩, ⟨true, "", "from stderr"⟩],
   0, "Xa1B2c", []⟩

/-- A concrete `deploy_code` parameter object. -/
def deployParams : JsValue :=
  .obj [("files", .arr [.obj [("path", .str "index.js"), ("content", .str "x")]])]

/-- The typed arguments `deployParams` parses to. -/
def dca0 : DeployCodeArgs := ⟨[⟨"index.js", "x"⟩], none, none, none, none⟩

/-- A concrete `import` argument record carrying inline content. -/
def ia0 : ImportArgs := ⟨none, some "data", "c1", none, none⟩

/-- `query_collection` arguments with only the collection given. -/
def qa0 : QueryCollectionArgs := { collection := "users" }

/-- `query_collection` arguments requesting a count. -/
def qaCount : QueryCollectionArgs := { collection := "users", count := some true }

/-- The message of the Node error a failing `coho deploy` subprocess
rejects with in the `stDeployFail` world: the full command line — raw
admin token included — plus the captured stderr. -/
def deployFailMessage : String :=
  "Command failed: coho deploy --projectname proj1 --space dev --main index --admintoken tok_secret_123\ndeploy error"

/-- The error-flagged payload text the dispatcher returns for that failing
deployment. -/
def deployLeakText : String := "Error: " ++ deployFailMessage

/-! ## State-threading lemmas -/

@[simp] theorem execFileM_fst (cmd : List String) (st : St) :
    (execFileM cmd st).1 = st.pending.headD defaultOutcome := by
  unfold execFileM; cases st.pending <;> rfl

@[simp] theorem execFileM_cwd (cmd : List String) (st : St) :
    (execFileM cmd st).2.cwd = st.cwd := by
  unfold execFileM; cases st.pending <;> rfl

@[simp] theorem execFileM_fs (cmd : List String) (st : St) :
    (execFileM cmd st).2.fs = st.fs := by
  unfold execFileM; cases st.pending <;> rfl

@[simp] theorem execFileM_pending (cmd : List String) (st : St) :
    (execFileM cmd st).2.pending = st.pending.tail := by
  unfold execFileM; cases st.pending <;> rfl

@[simp] theorem execFileM_spawned (cmd : List String) (st : St) :
    (execFileM cmd st).2.spawned = st.spawned ++ [cmd] := by
  unfold execFileM; cases st.pending <;> rfl

@[simp] theorem fsCreate_cwd (p : String) (st : St) : (fsCreate p st).cwd = st.cwd := rfl

@[simp] theorem fsCreate_pending (p : String) (st : St) :
    (fsCreate p st).pending = st.pending := rfl

@[simp] theorem fsCreate_now (p : String) (st : St) : (fsCreate p st).now = st.now := rfl

@[simp] theorem fsCreate_tmpSuffix (p : String) (st : St) :
    (fsCreate p st).tmpSuffix = st.tmpSuffix := rfl

@[simp] theorem fsUnlink_cwd (p : String) (st : St) : (fsUnlink p st).cwd = st.cwd := rfl

@[simp] theorem fsRmRecursive_cwd (d : String) (st : St) : (fsRmRecursive d st).cwd = st.cwd := rfl

@[simp] theorem foldl_fsCreate_cwd (g : FileEntry → String) (l : List FileEntry) (st : St) :
    (l.foldl (fun s f => fsCreate (g f) s) st).cwd = st.cwd := by
  induction l generalizing st with
  | nil => rfl
  | cons f l ih => simp [List.foldl, ih]

@[simp] theorem foldl_fsCreate_pending (g : FileEntry → String) (l : List FileEntry) (st : St) :
    (l.foldl (fun s f => fsCreate (g f) s) st).pending = st.pending := by
  induction l generalizing st with
  | nil => rfl
  | cons f l ih => simp [List.foldl, ih]

@[simp] theorem fsCreate_mem (q p : String) (st : St) :
    q ∈ (fsCreate p st).fs ↔ q = p ∨ q ∈ st.fs := by
  unfold fsCreate
  simp only [List.mem_cons, List.mem_filter, decide_eq_true_eq]
  constructor
  · rintro (h | ⟨h, _⟩)
    · exact Or.inl h
    · exact Or.inr h
  · rintro (h | h)
    · exact Or.inl h
    · by_cases hq : q = p
      · exact Or.inl hq
      · exact Or.inr ⟨h, hq⟩

@[simp] theorem fsUnlink_mem (q p : String) (st : St) :
    q ∈ (fsUnlink p st).fs ↔ q ∈ st.fs ∧ q ≠ p := by
  unfold fsUnlink
  simp [List.mem_filter]

@[simp] theorem fsRmRecursive_mem (q d : String) (st : St) :
    q ∈ (fsRmRecursive d st).fs ↔ q ∈ st.fs ∧ ¬ pathHasPrefix d q := by
  unfold fsRmRecursive
  simp [List.mem_filter]

@[simp] theorem pathHasPrefix_self (p : String) : pathHasPrefix p p = true := by
  unfold pathHasPrefix
  exact List.isPrefixOf_iff_prefix.mpr (List.prefix_refl _)

theorem foldl_fsCreate_mem (g : FileEntry → String) (l : List FileEntry) (st : St)
    (q : String) (h : q ∈ st.fs) :
    q ∈ (l.foldl (fun s f => fsCreate (g f) s) st).fs := by
  induction l generalizing st with
  | nil => exact h
  | cons f l ih =>
    refine ih _ ?_
    simp [h]

/-! ## Behaviour lemmas

Named facts about the embedded handlers, referenced by the per-claim
theorems below. -/

/-- Deployment restores the working directory: every exit path of
`deployCodeRun` ends with `cwd` equal to its starting value. -/
theorem deployCodeRun_cwd (cfg : CodehooksConfig) (a : DeployCodeArgs) (st : St) :
    ((deployCodeRun cfg a st).2).cwd = st.cwd := by
  unfold deployCodeRun
  dsimp only
  split_ifs <;> simp

/-- `file_upload` unlinks its staged file on both exit paths. -/
theorem fileUploadRun_cleanup (cfg : CodehooksConfig) (a : FileUploadArgs) (st : St) :
    fileUploadTempPath a.target ∉ ((fileUploadRun cfg a st).2).fs := by
  unfold fileUploadRun
  dsimp only
  split <;> simp

/-- `add_schema` unlinks its staged schema file on both exit paths. -/
theorem addSchemaRun_cleanup (cfg : CodehooksConfig) (a : SchemaArgs) (st : St) :
    schemaTempPath st.now ∉ ((addSchemaRun cfg a st).2).fs := by
  unfold addSchemaRun
  dsimp only
  split <;> simp

/-- `import` with supplied content unlinks its staged file on both exit
paths. -/
theorem importRun_cleanup (cfg : CodehooksConfig) (a : ImportArgs) (st : St)
    (h : jsTruthyStr a.content = true) :
    importTempPath st.now ∉ ((importRun cfg a st).2).fs := by
  unfold importRun
  dsimp only
  split_ifs with h1
  · exact absurd h h1.2
  · split <;> simp

/-- A failing `deploy_code` leaves its staging directory on the
filesystem. -/
theorem deployCodeRun_preserve (cfg : CodehooksConfig) (a : DeployCodeArgs) (st : St)
    (e : Thrown) (h : (deployCodeRun cfg a st).1 = .error e) :
    deployTmpDir st.tmpSuffix ∈ ((deployCodeRun cfg a st).2).fs := by
  revert h
  unfold deployCodeRun
  dsimp only
  split_ifs <;> intro h <;>
    simp only [execFileM_fs, fsCreate_mem, fsRmRecursive_mem, List.mem_filter] <;>
    first
      | exact foldl_fsCreate_mem _ _ _ _ (by simp)
      | exact Or.inr (foldl_fsCreate_mem _ _ _ _ (by simp))
      | simp at h

/-- A successful `deploy_code` removes its staging directory. -/
theorem deployCodeRun_cleanup (cfg : CodehooksConfig) (a : DeployCodeArgs) (st : St)
    (r : CallResult) (h : (deployCodeRun cfg a st).1 = .ok r) :
    deployTmpDir st.tmpSuffix ∉ ((deployCodeRun cfg a st).2).fs := by
  revert h
  unfold deployCodeRun
  dsimp only
  split_ifs <;> intro h <;> simp_all

/-- On exit success the executor returns `stdout || stderr`, redacted. -/
theorem executeCohoCommand_ok (cfg : CodehooksConfig) (args : List String) (st : St)
    (o : ExecOutcome) (rest : List ExecOutcome)
    (hp : st.pending = o :: rest) (hok : o.ok = true) :
    (executeCohoCommand cfg args st).1 =
      .ok (sanitizeText cfg.adminToken (jsOrStr o.stdout o.stderr)) := by
  unfold executeCohoCommand
  dsimp only
  simp [execFileM_fst, hp, hok]

/-- On failure the executor throws a transport-level `McpError` carrying
the sanitized diagnostics. -/
theorem executeCohoCommand_failure (cfg : CodehooksConfig) (args : List String) (st : St)
    (o : ExecOutcome) (rest : List ExecOutcome)
    (hp : st.pending = o :: rest) (hfail : o.ok = false) :
    (executeCohoCommand cfg args st).1 = .error (.mcp ⟨.invalidRequest,
      "Command failed: " ++ commandFailedDetails cfg.adminToken
        ("coho" :: args ++ ["--admintoken", cfg.adminToken]) o⟩) := by
  unfold executeCohoCommand
  dsimp only
  simp [execFileM_fst, hp, hfail]

/-- The executor spawns exactly one command: the caller's vector with the
admin-token pair appended by the executor itself. -/
theorem executeCohoCommand_spawn (cfg : CodehooksConfig) (args : List String) (st : St) :
    (executeCohoCommand cfg args st).2.spawned =
      st.spawned ++ ["coho" :: args ++ ["--admintoken", cfg.adminToken]] := by
  unfold executeCohoCommand
  dsimp only
  split <;> simp

/-- The token occurs exactly once in the executor's spawned vector,
provided no caller-supplied argument coincides with it. -/
theorem executeCohoCommand_token_once (cfg : CodehooksConfig) (args : List String)
    (hno : cfg.adminToken ∉ "coho" :: args) (hflag : cfg.adminToken ≠ "--admintoken") :
    ("coho" :: args ++ ["--admintoken", cfg.adminToken]).count cfg.adminToken = 1 := by
  have h1 : cfg.adminToken ∉ args := fun hm => hno (List.mem_cons_of_mem _ hm)
  have h2 : "coho" ≠ cfg.adminToken := fun he => hno (by simp [he])
  simp [List.count_cons, List.count_append, List.count_eq_zero.mpr h1, h2, Ne.symm hflag]

/-- On exit success with non-empty stdout the executor returns redacted
stdout. -/
theorem executeCohoCommand_stdout (cfg : CodehooksConfig) (args : List String) (st : St)
    (o : ExecOutcome) (rest : List ExecOutcome)
    (hp : st.pending = o :: rest) (hok : o.ok = true) (hout : o.stdout ≠ "") :
    (executeCohoCommand cfg args st).1 = .ok (sanitizeText cfg.adminToken o.stdout) := by
  unfold executeCohoCommand
  dsimp only
  simp [execFileM_fst, hp, hok, jsOrStr, hout]

/-- On exit success with empty stdout the executor returns redacted
stderr. -/
theorem executeCohoCommand_stderr_fallback (cfg : CodehooksConfig) (args : List String)
    (st : St) (o : ExecOutcome) (rest : List ExecOutcome)
    (hp : st.pending = o :: rest) (hok : o.ok = true) (hout : o.stdout = "") :
    (executeCohoCommand cfg args st).1 = .ok (sanitizeText cfg.adminToken o.stderr) := by
  unfold executeCohoCommand
  dsimp only
  simp [execFileM_fst, hp, hok, hout, jsOrStr]

/-- A fully successful deployment whose `coho deploy` printed nothing to
stdout returns stderr, or the fixed text when stderr is empty too. -/
theorem deployCodeRun_output (cfg : CodehooksConfig) (a : DeployCodeArgs) (st : St)
    (o1 o2 o3 o4 : ExecOutcome) (rest : List ExecOutcome)
    (hp : st.pending = o1 :: o2 :: o3 :: o4 :: rest)
    (h1 : o1.ok = true) (h2 : o2.ok = true) (h3 : o3.ok = true)
    (h4 : o4.ok = true) (hout : o4.stdout = "") :
    (deployCodeRun cfg a st).1 =
      .ok ⟨jsOrStr o4.stderr "Deployment successful", false⟩ := by
  unfold deployCodeRun
  dsimp only
  simp [execFileM_fst, execFileM_pending, hp, h1, h2, h3, h4, hout, jsOrStr]

theorem not_mem_optStrSeg (x flag : String) (o : Option String)
    (hx : x ≠ flag) (hv : x ≠ o.getD "") : x ∉ optStrSeg flag o := by
  unfold optStrSeg
  split <;> simp_all

theorem not_mem_optNumSeg (x flag : String) (o : Option Int)
    (hx : x ≠ flag) (hv : x ≠ toString (o.getD 0)) : x ∉ optNumSeg flag o := by
  unfold optNumSeg
  cases o with
  | none => simp
  | some n => split <;> simp_all

theorem not_mem_boolSeg (x flag : String) (b : Bool) (hx : x ≠ flag) :
    x ∉ boolSeg flag b := by
  unfold boolSeg
  split <;> simp_all

/-- Without an explicit limit and without `count`, the built query vector
carries the default `--limit 100` pair. -/
theorem buildQueryArgs_default_limit (cfg : CodehooksConfig) (a : QueryCollectionArgs)
    (hlimit : a.limit = none) (hcount : a.count.getD false = false) :
    ["--limit", "100"] <:+: buildQueryArgs cfg a := by
  refine ⟨["query", "--collection", a.collection, "--project", cfg.projectId, "--space", cfg.space]
      ++ optStrSeg "--query" (some (a.query.getD ""))
      ++ boolSeg "--count" (a.count.getD false)
      ++ boolSeg "--delete" (a.delete.getD false)
      ++ optStrSeg "--update" a.update
      ++ optStrSeg "--replace" a.replace
      ++ optStrSeg "--useindex" a.useindex
      ++ optStrSeg "--start" a.start
      ++ optStrSeg "--end" a.«end»,
    optStrSeg "--fields" a.fields
      ++ optStrSeg "--sort" a.sort
      ++ optNumSeg "--offset" a.offset
      ++ optStrSeg "--enqueue" a.enqueue
      ++ boolSeg "--reverse" (a.reverse.getD false)
      ++ boolSeg "--csv" (a.csv.getD false)
      ++ boolSeg "--jsonl" (a.jsonl.getD false), ?_⟩
  unfold buildQueryArgs
  dsimp only
  rw [hcount, hlimit]
  have h100 : toString (100 : Int) = "100" := rfl
  simp [optNumSeg, h100, List.append_assoc]

/-- With `count` and no explicit limit, the built query vector carries no
`--limit` token (assuming no caller-supplied value is itself the literal
`"--limit"`). -/
theorem buildQueryArgs_count_no_limit (cfg : CodehooksConfig) (a : QueryCollectionArgs)
    (hlimit : a.limit = none) (hcount : a.count.getD false = true)
    (hfield : "--limit" ∉ queryFieldStrings cfg a) :
    "--limit" ∉ buildQueryArgs cfg a := by
  simp only [queryFieldStrings, List.mem_cons, List.not_mem_nil, or_false, not_or] at hfield
  obtain ⟨hc, hp, hs, hq, hu, hr, hui, hst, he, hf, hso, hen, hoff⟩ := hfield
  unfold buildQueryArgs
  dsimp only
  rw [hcount, hlimit]
  have hz : optNumSeg "--limit" (if (true : Bool) = true then (none : Option Int) else some 100)
      = [] := rfl
  rw [hz]
  simp only [List.mem_append, not_or, List.append_nil, List.nil_append]
  refine ⟨⟨⟨⟨⟨⟨⟨⟨⟨⟨⟨⟨⟨⟨⟨?_, ?_⟩, ?_⟩, ?_⟩, ?_⟩, ?_⟩, ?_⟩, ?_⟩, ?_⟩, ?_⟩, ?_⟩, ?_⟩, ?_⟩, ?_⟩, ?_⟩, ?_⟩
  · simp [hc, hp, hs]
  · exact not_mem_optStrSeg _ _ _ (by decide) hq
  · exact not_mem_boolSeg _ _ _ (by decide)
  · exact not_mem_boolSeg _ _ _ (by decide)
  · exact not_mem_optStrSeg _ _ _ (by decide) hu
  · exact not_mem_optStrSeg _ _ _ (by decide) hr
  · exact not_mem_optStrSeg _ _ _ (by decide) hui
  · exact not_mem_optStrSeg _ _ _ (by decide) hst
  · exact not_mem_optStrSeg _ _ _ (by decide) he
  · exact not_mem_optStrSeg _ _ _ (by decide) hf
  · exact not_mem_optStrSeg _ _ _ (by decide) hso
  · exact not_mem_optNumSeg _ _ _ (by decide) hoff
  · exact not_mem_optStrSeg _ _ _ (by decide) hen
  · exact not_mem_boolSeg _ _ _ (by decide)
  · exact not_mem_boolSeg _ _ _ (by decide)
  · exact not_mem_boolSeg _ _ _ (by decide)

/-- Every argument builder except `buildDeployArgs` ignores the admin
token: its output is unchanged under any token replacement. -/
theorem builders_token_independent (cfg : CodehooksConfig) (t : String) :
    buildersIgnoreToken cfg t := by
  refine ⟨fun a => rfl, fun p tgt => rfl, fun a => rfl, fun a => rfl, fun a => rfl,
    fun a => rfl, fun a => rfl, fun a => rfl, fun c p => rfl, fun a => rfl, fun a => rfl,
    fun a => rfl, fun a tf => rfl, fun a => rfl, fun a => rfl, fun a => rfl, fun a => rfl,
    fun a => rfl, fun a => rfl⟩

/-- The deploy strategy itself places the admin token into the argument
vector it builds. -/
theorem buildDeployArgs_token (cfg : CodehooksConfig) (a : DeployCodeArgs) :
    cfg.adminToken ∈ buildDeployArgs cfg a := by
  simp [buildDeployArgs]

/-- Two upload targets stage at the same path exactly when their basenames
coincide. -/
theorem fileUploadTempPath_eq_iff (t1 t2 : String) :
    fileUploadTempPath t1 = fileUploadTempPath t2 ↔ basename t1 = basename t2 := by
  unfold fileUploadTempPath
  constructor
  · intro h
    have hd := congrArg String.data h
    simp only [String.data_append] at hd
    exact String.ext (List.append_cancel_left hd)
  · intro h
    rw [h]

/-- Distinct `mkdtemp` suffixes give distinct staging directories. -/
theorem deployTmpDir_injective (s1 s2 : String) (h : s1 ≠ s2) :
    deployTmpDir s1 ≠ deployTmpDir s2 := by
  intro hc
  apply h
  have hd := congrArg String.data hc
  simp only [deployTmpDir, String.data_append] at hd
  exact String.ext (List.append_cancel_left hd)

/-! ## Redaction correctness

The sanitizer really removes every occurrence of a well-behaved token:
for a non-empty token containing no `*`, no occurrence of the token
survives literal global replacement by `***`.  (This is what makes the C1
finding a property of the `deploy_code` path specifically, not of the
sanitizer.) -/
theorem infix_append_cases (t a b : List Char) (ht : t ≠ []) (h : t <:+: a ++ b) :
    (∃ c, c ∈ a ∧ c ∈ t) ∨ t <:+: b := by
  induction a with
  | nil => exact Or.inr (by simpa using h)
  | cons x a ih =>
    obtain ⟨p, q, hpq⟩ := h
    cases p with
    | nil =>
      cases t with
      | nil => exact absurd rfl ht
      | cons y t' =>
        have hx : x = y := by
          have := congrArg (fun l => l.head?) hpq
          simpa using this.symm
        exact Or.inl ⟨x, List.mem_cons_self x _, by rw [hx]; exact List.mem_cons_self y t'⟩
    | cons z p' =>
      have h2 : p' ++ t ++ q = a ++ b := by
        have := congrArg List.tail hpq
        simpa [List.append_assoc] using this
      exact (ih ⟨p', q, h2⟩).elim
        (fun ⟨c, hca, hct⟩ => Or.inl ⟨c, List.mem_cons_of_mem _ hca, hct⟩) Or.inr

theorem prefix_reflect (t : List Char) :
    ∀ (fuel : Nat) (s u : List Char), (∀ c ∈ u, c ≠ '*') →
      u <+: replaceAllAux t ['*', '*', '*'] fuel s → u <+: s := by
  intro fuel
  induction fuel with
  | zero =>
    intro s u _ h
    cases s with
    | nil => simpa [replaceAllAux] using h
    | cons c s => simpa [replaceAllAux] using h
  | succ fuel ih =>
    intro s u hu h
    cases s with
    | nil => simpa [replaceAllAux] using h
    | cons c s =>
      rw [replaceAllAux] at h
      split at h
      · cases u with
        | nil => exact List.nil_prefix
        | cons d u' =>
          exfalso
          have hd : d = '*' := by
            rcases List.cons_prefix_cons.mp h with ⟨h1, _⟩
            exact h1
          exact hu d (List.mem_cons_self _ _) hd
      · cases u with
        | nil => exact List.nil_prefix
        | cons d u' =>
          rcases List.cons_prefix_cons.mp h with ⟨h1, h2⟩
          subst h1
          exact List.cons_prefix_cons.mpr ⟨rfl, ih s u' (fun c hc => hu c (List.mem_cons_of_mem _ hc)) h2⟩

theorem replaceAllAux_no_infix (t : List Char) (ht : t ≠ []) (hstar : '*' ∉ t) :
    ∀ (fuel : Nat) (s : List Char), s.length ≤ fuel →
      ¬ t <:+: replaceAllAux t ['*', '*', '*'] fuel s := by
  intro fuel
  induction fuel with
  | zero =>
    intro s hs h
    have hnil : s = [] := List.length_eq_zero.mp (Nat.le_zero.mp hs)
    subst hnil
    exact ht (by simpa [replaceAllAux] using h)
  | succ fuel ih =>
    intro s hs h
    cases s with
    | nil => exact ht (by simpa [replaceAllAux] using h)
    | cons c s =>
      rw [replaceAllAux] at h
      split at h
      next hcond =>
        have h' : t <:+: ['*', '*', '*'] ++
            replaceAllAux t ['*', '*', '*'] fuel (List.drop t.length (c :: s)) := by
          simpa using h
        rcases infix_append_cases t _ _ ht h' with ⟨d, hd3, hdt⟩ | hrest
        · have hd : d = '*' := by simpa using hd3
          exact hstar (hd ▸ hdt)
        · have ht1 : 1 ≤ t.length := by
            cases t with
            | nil => exact absurd rfl ht
            | cons e t' => simp
          have hlen : (List.drop t.length (c :: s)).length ≤ fuel := by
            simp only [List.length_drop, List.length_cons]
            simp only [List.length_cons] at hs
            omega
          exact ih _ hlen hrest
      next hcond =>
        rcases List.infix_cons_iff.mp h with hpre | hinf
        · cases t with
          | nil => exact ht rfl
          | cons d t' =>
            rcases List.cons_prefix_cons.mp hpre with ⟨hdc, hpre'⟩
            subst hdc
            have ht's : t' <+: s :=
              prefix_reflect _ fuel s t'
                (fun e he heq => hstar (heq ▸ List.mem_cons_of_mem _ he)) hpre'
            exact hcond ⟨List.isPrefixOf_iff_prefix.mpr
              (List.cons_prefix_cons.mpr ⟨rfl, ht's⟩), ht⟩
        · have hlen : s.length ≤ fuel := by
            simp only [List.length_cons] at hs
            omega
          exact ih s hlen hinf

/-- The sanitizer's core guarantee: for a non-empty token free of the
redaction character `*`, the sanitized text contains no occurrence of the
token.  (Tokens containing `*` can survive — the replacement `***` can
recombine with adjacent text — and in the real JS, tokens with regex
metacharacters misbehave further, since the code builds `new RegExp(token)`
unescaped.) -/
theorem sanitizeText_no_token (token s : String) (h1 : token ≠ "")
    (h2 : '*' ∉ token.data) :
    ¬ token.data <:+: (sanitizeText token s).data := by
  have hdat : token.data ≠ [] := by
    intro hd
    exact h1 (String.ext (by simp [hd]))
  unfold sanitizeText
  split
  next hs =>
    subst hs
    intro h
    exact hdat (by simpa using h)
  next hs =>
    exact replaceAllAux_no_infix token.data hdat h2 s.data.length s.data (Nat.le_refl _)

/-- Instantiation to the executor: the success payload it returns never
contains a `*`-free non-empty token. -/
theorem executeCohoCommand_ok_no_token (cfg : CodehooksConfig) (args : List String)
    (st : St) (o : ExecOutcome) (rest : List ExecOutcome) (out : String)
    (hp : st.pending = o :: rest) (hok : o.ok = true)
    (h1 : cfg.adminToken ≠ "") (h2 : '*' ∉ cfg.adminToken.data)
    (hres : (executeCohoCommand cfg args st).1 = .ok out) :
    ¬ cfg.adminToken.data <:+: out.data := by
  have := executeCohoCommand_ok cfg args st o rest hp hok
  rw [hres] at this
  have hout : out = sanitizeText cfg.adminToken (jsOrStr o.stdout o.stderr) := by
    injection this
  rw [hout]
  exact sanitizeText_no_token _ _ h1 h2

/-! ## Claim theorems -/

set_option maxRecDepth 40000 in
/-- C1: the claimed redaction invariant ("no string observable outside the
server contains the token") is violated by the code: a `deploy_code`
invocation whose `coho deploy` subprocess fails returns the raw Node error
message — which contains the command line with the unredacted admin token —
to the RPC caller as an error-flagged payload, because `deploy_code`
bypasses the sanitizing executor and the dispatcher's catch block does not
redact.  Evaluated here at a concrete failing deployment: the payload text
contains the configured token `tok_secret_123` as a substring. -/
theorem C1_deploy_failure_emits_raw_token :
    (handleCallTool cfg0 "deploy_code" deployParams stDeployFail).1 =
      .ok ⟨deployLeakText, true⟩ ∧
    cfg0.adminToken.data <:+: deployLeakText.data :=
  ⟨rfl, by decide⟩

/-- C2 (counterexample): a failing external command is NOT returned as an
error-flagged response payload — the executor throws `McpError` and the
dispatcher re-raises it, so the RPC caller sees a transport-level fault.
Shown for a concrete failing `create_collection`. -/
theorem C2_counterexample :
    (handleCallTool cfg0 "create_collection" (.obj [("collection", .str "mycoll")])
        stExecFail).1
      = .error ⟨.invalidRequest,
        "Command failed: Command failed: coho createcollection --project proj1 --space dev mycoll --admintoken ***\nboom - boom"⟩ :=
  rfl

/-- C2 (amended): invocations through the shared executor whose external
command fails raise a transport-level `McpError` (InvalidRequest) carrying
the sanitized diagnostic text, which the dispatcher's catch block re-raises
unchanged; error-flagged response payloads arise only from schema
validation failures (`Invalid arguments: …`) and from non-`McpError`
exceptions (`Error: …`, e.g. `deploy_code`'s direct subprocess
failures). -/
theorem C2_errors_as_transport_faults :
    (∀ (cfg : CodehooksConfig) (args : List String) (st : St) (o : ExecOutcome)
        (rest : List ExecOutcome), st.pending = o :: rest → o.ok = false →
      (executeCohoCommand cfg args st).1 = .error (.mcp ⟨.invalidRequest,
        "Command failed: " ++ commandFailedDetails cfg.adminToken
          ("coho" :: args ++ ["--admintoken", cfg.adminToken]) o⟩)) ∧
    (∀ e, foldThrown (.error (.mcp e)) = .error e) ∧
    (∀ m, foldThrown (.error (.zod m)) = .ok ⟨"Invalid arguments: " ++ m, true⟩) ∧
    (∀ m, foldThrown (.error (.err m)) = .ok ⟨"Error: " ++ m, true⟩) :=
  ⟨executeCohoCommand_failure, fun _ => rfl, fun _ => rfl, fun _ => rfl⟩

/-- Witness for C2: the amended statement instantiated in the `stExecFail`
world. -/
theorem C2_witness :
    stExecFail.pending = ⟨false, "", "boom"⟩ :: [] ∧
    (executeCohoCommand cfg0 ["get", "--project", "proj1"] stExecFail).1
      = .error (.mcp ⟨.invalidRequest,
        "Command failed: " ++ commandFailedDetails cfg0.adminToken
          ("coho" :: ["get", "--project", "proj1"] ++ ["--admintoken", cfg0.adminToken])
          ⟨false, "", "boom"⟩⟩) ∧
    foldThrown (.error (.zod "collection: Required"))
      = .ok ⟨"Invalid arguments: collection: Required", true⟩ :=
  ⟨rfl, C2_errors_as_transport_faults.1 cfg0 ["get", "--project", "proj1"] stExecFail
      ⟨false, "", "boom"⟩ [] rfl rfl,
    C2_errors_as_transport_faults.2.2.1 "collection: Required"⟩

/-- C3 (counterexample): the `deploy_code` argument-building strategy
itself places the admin token into the argument vector it hands to
`execFile` — contradicting "only the command executor appends the
token". -/
theorem C3_counterexample :
    buildDeployArgs cfg0 dca0 =
      ["deploy", "--projectname", "proj1", "--space", "dev", "--main", "index",
       "--admintoken", "tok_secret_123"] ∧
    cfg0.adminToken ∈ buildDeployArgs cfg0 dca0 :=
  ⟨rfl, by decide⟩

/-- C3 (amended): for every invocation routed through the shared executor
the token is appended exactly once, by the executor (the spawned vector is
the caller's vector plus one trailing `--admintoken <token>` pair, and the
token occurs once in it when no caller argument coincides with it), and no
non-deploy argument builder reads the token; the exception is
`deploy_code`, whose strategy builds a vector containing the token and
invokes the program directly. -/
theorem C3_token_single_append :
    (∀ (cfg : CodehooksConfig) (args : List String) (st : St),
      (executeCohoCommand cfg args st).2.spawned =
        st.spawned ++ ["coho" :: args ++ ["--admintoken", cfg.adminToken]]) ∧
    (∀ (cfg : CodehooksConfig) (args : List String),
      cfg.adminToken ∉ "coho" :: args → cfg.adminToken ≠ "--admintoken" →
      ("coho" :: args ++ ["--admintoken", cfg.adminToken]).count cfg.adminToken = 1) ∧
    (∀ (cfg : CodehooksConfig) (t : String), buildersIgnoreToken cfg t) ∧
    (∀ (cfg : CodehooksConfig) (a : DeployCodeArgs),
      cfg.adminToken ∈ buildDeployArgs cfg a) :=
  ⟨executeCohoCommand_spawn, executeCohoCommand_token_once,
    builders_token_independent, buildDeployArgs_token⟩

/-- Witness for C3: the amended statement instantiated concretely. -/
theorem C3_witness :
    cfg0.adminToken ∉ ["coho", "q"] ∧
    (executeCohoCommand cfg0 ["q"] stExecOk).2.spawned =
      stExecOk.spawned ++ [["coho", "q", "--admintoken", "tok_secret_123"]] ∧
    (["coho", "q", "--admintoken", "tok_secret_123"] : List String).count "tok_secret_123"
      = 1 ∧
    buildersIgnoreToken cfg0 "some_other_token" :=
  ⟨by decide,
    C3_token_single_append.1 cfg0 ["q"] stExecOk,
    C3_token_single_append.2.1 cfg0 ["q"] (by decide) (by decide),
    C3_token_single_append.2.2.1 cfg0 "some_other_token"⟩

/-- C4: staged temporary resources are removed on every exit path —
`file_upload` and `add_schema` unconditionally, `import` whenever inline
content was staged — with the single documented exception: a `deploy_code`
whose subprocess chain fails preserves its staging directory, while a
successful one removes it. -/
theorem C4_staging_cleanup :
    (∀ (cfg : CodehooksConfig) (a : FileUploadArgs) (st : St),
      fileUploadTempPath a.target ∉ ((fileUploadRun cfg a st).2).fs) ∧
    (∀ (cfg : CodehooksConfig) (a : SchemaArgs) (st : St),
      schemaTempPath st.now ∉ ((addSchemaRun cfg a st).2).fs) ∧
    (∀ (cfg : CodehooksConfig) (a : ImportArgs) (st : St),
      jsTruthyStr a.content = true → importTempPath st.now ∉ ((importRun cfg a st).2).fs) ∧
    (∀ (cfg : CodehooksConfig) (a : DeployCodeArgs) (st : St) (r : CallResult),
      (deployCodeRun cfg a st).1 = .ok r →
      deployTmpDir st.tmpSuffix ∉ ((deployCodeRun cfg a st).2).fs) ∧
    (∀ (cfg : CodehooksConfig) (a : DeployCodeArgs) (st : St) (e : Thrown),
      (deployCodeRun cfg a st).1 = .error e →
      deployTmpDir st.tmpSuffix ∈ ((deployCodeRun cfg a st).2).fs) :=
  ⟨fileUploadRun_cleanup, addSchemaRun_cleanup, importRun_cleanup,
    deployCodeRun_cleanup, deployCodeRun_preserve⟩

/-- Witness for C4: cleanup and the deploy exception at concrete runs. -/
theorem C4_witness :
    jsTruthyStr ia0.content = true ∧
    importTempPath stExecOk.now ∉ ((importRun cfg0 ia0 stExecOk).2).fs ∧
    (deployCodeRun cfg0 dca0 stDeployOk).1 = .ok ⟨"Deployment successful", false⟩ ∧
    deployTmpDir stDeployOk.tmpSuffix ∉ ((deployCodeRun cfg0 dca0 stDeployOk).2).fs ∧
    deployTmpDir stDeployFail.tmpSuffix ∈ ((deployCodeRun cfg0 dca0 stDeployFail).2).fs :=
  ⟨rfl,
    C4_staging_cleanup.2.2.1 cfg0 ia0 stExecOk rfl,
    rfl,
    C4_staging_cleanup.2.2.2.1 cfg0 dca0 stDeployOk ⟨"Deployment successful", false⟩ rfl,
    C4_staging_cleanup.2.2.2.2 cfg0 dca0 stDeployFail (.err deployFailMessage) rfl⟩

/-- C5: a request arriving while the project identifier or the admin token
is blank is rejected with the MissingConfiguration transport-level fault;
the result does not depend on the requested tool name (rejection precedes
tool lookup) and the state is unchanged (no subprocess is spawned).  The
catalog contains no configuration tools, so no request is exempt. -/
theorem C5_missing_config_rejected (cfg : CodehooksConfig) (name : String)
    (params : JsValue) (st : St)
    (h : isBlank cfg.projectId = true ∨ isBlank cfg.adminToken = true) :
    handleCallTool cfg name params st = (.error (missingConfigError cfg), st) := by
  unfold handleCallTool
  rw [if_pos h]

/-- Witness for C5: a blank project identifier rejects both a known and an
unknown tool name identically. -/
theorem C5_witness :
    isBlank cfgBlank.projectId = true ∧
    handleCallTool cfgBlank "query_collection" (.obj []) stExecOk
      = (.error (missingConfigError cfgBlank), stExecOk) ∧
    handleCallTool cfgBlank "no_such_tool" (.obj []) stExecOk
      = (.error (missingConfigError cfgBlank), stExecOk) :=
  ⟨rfl,
    C5_missing_config_rejected cfgBlank "query_collection" (.obj []) stExecOk (Or.inl rfl),
    C5_missing_config_rejected cfgBlank "no_such_tool" (.obj []) stExecOk (Or.inl rfl)⟩

/-- C6: a `query_collection` invocation with no explicit limit puts the
default pair `--limit 100` into the argument vector unless the count flag
is set, in which case the vector carries no `--limit` token at all
(provided no caller-supplied field value is the literal `"--limit"`). -/
theorem C6_default_limit :
    (∀ (cfg : CodehooksConfig) (a : QueryCollectionArgs),
      a.limit = none → a.count.getD false = false →
      ["--limit", "100"] <:+: buildQueryArgs cfg a) ∧
    (∀ (cfg : CodehooksConfig) (a : QueryCollectionArgs),
      a.limit = none → a.count.getD false = true →
      "--limit" ∉ queryFieldStrings cfg a → "--limit" ∉ buildQueryArgs cfg a) :=
  ⟨buildQueryArgs_default_limit, buildQueryArgs_count_no_limit⟩

/-- Witness for C6: both branches at concrete arguments. -/
theorem C6_witness :
    qa0.limit = none ∧
    ["--limit", "100"] <:+: buildQueryArgs cfg0 qa0 ∧
    "--limit" ∉ buildQueryArgs cfg0 qaCount :=
  ⟨rfl,
    C6_default_limit.1 cfg0 qa0 rfl rfl,
    C6_default_limit.2 cfg0 qaCount rfl rfl (by decide)⟩

/-- C7: when the configuration is present and the requested tool exists, a
parameter object failing the tool's schema yields the `Invalid arguments:`
error-flagged payload with the state unchanged — no subprocess is spawned
and the (total) handler does not crash. -/
theorem C7_invalid_arguments (cfg : CodehooksConfig) (name : String) (params : JsValue)
    (st : St) (tid : ToolId) (m : String)
    (hproj : isBlank cfg.projectId = false) (htok : isBlank cfg.adminToken = false)
    (hlook : lookupTool name = some tid) (hparse : parseArgs tid params = .error m) :
    handleCallTool cfg name params st = (.ok ⟨"Invalid arguments: " ++ m, true⟩, st) := by
  simp [handleCallTool, hproj, htok, hlook, hparse, foldThrown]

/-- Witness for C7: `query_collection` without its required collection
field. -/
theorem C7_witness :
    lookupTool "query_collection" = some .queryCollection ∧
    parseArgs .queryCollection (.obj []) = .error "collection: Required" ∧
    handleCallTool cfg0 "query_collection" (.obj []) stExecOk
      = (.ok ⟨"Invalid arguments: collection: Required", true⟩, stExecOk) :=
  ⟨rfl, rfl,
    C7_invalid_arguments cfg0 "query_collection" (.obj []) stExecOk .queryCollection
      "collection: Required" rfl rfl rfl rfl⟩

/-- C8 (counterexample): two distinct `file_upload` invocations stage at
the same path — the staged path depends only on the target's basename. -/
theorem C8_counterexample :
    fileUploadTempPath "docs/readme.txt" = "/tmp/readme.txt" ∧
    fileUploadTempPath "img/readme.txt" = "/tmp/readme.txt" ∧
    ("docs/readme.txt" : String) ≠ "img/readme.txt" :=
  ⟨rfl, rfl, by decide⟩

/-- C8 (amended): staged-path uniqueness holds for `deploy_code` (distinct
`mkdtemp` names give distinct directories) but not in general:
`file_upload`'s staged path is a function of the target basename alone, so
two invocations share a staged path exactly when their target basenames
coincide. -/
theorem C8_staged_path_distinctness :
    (∀ s1 s2, s1 ≠ s2 → deployTmpDir s1 ≠ deployTmpDir s2) ∧
    (∀ t1 t2, fileUploadTempPath t1 = fileUploadTempPath t2 ↔ basename t1 = basename t2) :=
  ⟨deployTmpDir_injective, fileUploadTempPath_eq_iff⟩

/-- Witness for C8: the amended statement at concrete names. -/
theorem C8_witness :
    ("aX3f" : String) ≠ "bY7q" ∧
    deployTmpDir "aX3f" ≠ deployTmpDir "bY7q" ∧
    (fileUploadTempPath "x/f.bin" = fileUploadTempPath "y/f.bin"
      ↔ basename "x/f.bin" = basename "y/f.bin") :=
  ⟨by decide,
    C8_staged_path_distinctness.1 "aX3f" "bY7q" (by decide),
    C8_staged_path_distinctness.2 "x/f.bin" "y/f.bin"⟩

/-- C9: every `deploy_code` invocation ends with the working directory it
started with, on every exit path — success, dependency-installation
failure, and deploy-command failure. -/
theorem C9_deploy_restores_cwd (cfg : CodehooksConfig) (a : DeployCodeArgs) (st : St) :
    ((deployCodeRun cfg a st).2).cwd = st.cwd :=
  deployCodeRun_cwd cfg a st

/-- C10: a successful external command with empty stdout yields the
(redacted) captured stderr as the success payload; non-empty stdout is
preferred; a silent successful `coho deploy` yields its stderr, or the
fixed text `Deployment successful` when both streams are empty. -/
theorem C10_output_fallback :
    (∀ (cfg : CodehooksConfig) (args : List String) (st : St) (o : ExecOutcome)
        (rest : List ExecOutcome), st.pending = o :: rest → o.ok = true → o.stdout = "" →
      (executeCohoCommand cfg args st).1 = .ok (sanitizeText cfg.adminToken o.stderr)) ∧
    (∀ (cfg : CodehooksConfig) (args : List String) (st : St) (o : ExecOutcome)
        (rest : List ExecOutcome), st.pending = o :: rest → o.ok = true → o.stdout ≠ "" →
      (executeCohoCommand cfg args st).1 = .ok (sanitizeText cfg.adminToken o.stdout)) ∧
    (∀ (cfg : CodehooksConfig) (a : DeployCodeArgs) (st : St) (o1 o2 o3 o4 : ExecOutcome)
        (rest : List ExecOutcome), st.pending = o1 :: o2 :: o3 :: o4 :: rest →
      o1.ok = true → o2.ok = true → o3.ok = true → o4.ok = true → o4.stdout = "" →
      (deployCodeRun cfg a st).1 = .ok ⟨jsOrStr o4.stderr "Deployment successful", false⟩) :=
  ⟨executeCohoCommand_stderr_fallback, executeCohoCommand_stdout, deployCodeRun_output⟩

/-- Witness for C10: all three branches at concrete worlds. -/
theorem C10_witness :
    (executeCohoCommand cfg0 ["log"] stErrOnly).1
      = .ok (sanitizeText cfg0.adminToken "errtext") ∧
    (executeCohoCommand cfg0 ["log"] stExecOk).1
      = .ok (sanitizeText cfg0.adminToken "out") ∧
    (deployCodeRun cfg0 dca0 stDeployStderr).1 = .ok ⟨"from stderr", false⟩ ∧
    (deployCodeRun cfg0 dca0 stDeployOk).1 = .ok ⟨"Deployment successful", false⟩ :=
  ⟨C10_output_fallback.1 cfg0 ["log"] stErrOnly ⟨true, "", "errtext"⟩ [] rfl rfl rfl,
    C10_output_fallback.2.1 cfg0 ["log"] stExecOk ⟨true, "out", "errtext"⟩ [] rfl rfl
      (by decide),
    C10_output_fallback.2.2 cfg0 dca0 stDeployStderr ⟨true, "", ""⟩ ⟨true, "", ""⟩
      ⟨true, "", ""⟩ ⟨true, "", "from stderr"⟩ [] rfl rfl rfl rfl rfl rfl,
    C10_output_fallback.2.2 cfg0 dca0 stDeployOk ⟨true, "", ""⟩ ⟨true, "", ""⟩
      ⟨true, "", ""⟩ ⟨true, "", ""⟩ [] rfl rfl rfl rfl rfl rfl⟩

end Codehooks
